import Mathlib

/-!
Shallow embedding of `src/QT.py`, a Streamlit survey tool for qualitative
comparison of two depth-estimation algorithms (DepthPro vs EndoDac).

The script runs repeatedly (Streamlit reruns it on every user interaction);
persistent state lives in `st.session_state` (the triplet pool, the cursor
`current_idx`, and the response log).  We model one execution of the script
body as a function from the persistent session state plus the per-run inputs
(the current text-input value for the rater name, the per-render randomness of
the slot shuffle, and which button — if any — was pressed) to an outcome and
the new persistent state.  A whole interactive session is a fold of this run
function over a list of per-run inputs.

File-system access (`os.listdir`, `os.path.isfile`) is abstracted by a record
of total functions; SMTP transport is abstracted by a record of `Except`-valued
operations, each standing for a Python call that may raise.
-/

namespace QT

/-! ## Configuration constants (lines 16-28 of QT.py) -/

def pathJoin (a b : String) : String := a ++ "/" ++ b

def BASE_DIR : String := "QT_assessment"

def IMAGE_DIR : String := pathJoin BASE_DIR "images"

def DEPTHPRO_DIR : String := pathJoin BASE_DIR "depthpro"

def ENDODAC_DIR : String := pathJoin BASE_DIR "endodac"

def DEPTH_CATEGORIES : List String := ["high", "mid", "low"]

def RESULTS_FILENAME : String := "evaluation_results.xlsx"

def RESULTS_EMAIL : String := "francesco.mazola94@gmail.com"

/-! ## File system abstraction and `collect_image_triplets` (lines 33-56) -/

/-- The three parallel directory trees scanned by the script. -/
inductive Tree where
  | images
  | depthpro
  | endodac
deriving DecidableEq, Repr

def treeDir : Tree → String
  | .images => IMAGE_DIR
  | .depthpro => DEPTHPRO_DIR
  | .endodac => ENDODAC_DIR

/-- Abstraction of the directory layout on disk.  `entries cat` is what
`os.listdir(IMAGE_DIR/cat)` returns; `isFile t cat f` is what
`os.path.isfile(treeDir t / cat / f)` returns. -/
structure FS where
  entries : String → List String
  isFile : Tree → String → String → Bool

/-- The tuple `(img_path, dp_path, ed_path, cat, f)` appended at line 54. -/
structure Item where
  img_path : String
  dp_path : String
  ed_path : String
  cat : String
  filename : String
deriving DecidableEq, Repr

/-- The item built for category `cat` and filename `f`, with the three full
paths exactly as `os.path.join` builds them in the script. -/
def mkItem (cat f : String) : Item :=
  { img_path := pathJoin (pathJoin IMAGE_DIR cat) f
    dp_path := pathJoin (pathJoin DEPTHPRO_DIR cat) f
    ed_path := pathJoin (pathJoin ENDODAC_DIR cat) f
    cat := cat
    filename := f }

/-- Embedding of `collect_image_triplets` (lines 33-56): for each category,
list `images/<cat>` and keep the filenames that are regular files in all three
trees. -/
def collect_image_triplets (fs : FS) : List Item :=
  DEPTH_CATEGORIES.flatMap fun cat =>
    (fs.entries cat).filterMap fun f =>
      if fs.isFile .images cat f && fs.isFile .depthpro cat f
          && fs.isFile .endodac cat f then
        some (mkItem cat f)
      else
        none

/-! ## Email delivery: `send_results_email` (lines 166-204) -/

/-- Embedding of the `EmailMessage` assembled at lines 178-188. -/
structure EmailMessage where
  subject : String
  sender : String
  recipient : String
  content : String
  attachmentName : String
  attachmentData : String
deriving DecidableEq, Repr

/-- Abstraction of the transport-level operations inside the `try` block, each
an `Except`-valued function standing for a Python call that may raise: reading
the spreadsheet file, `server.login`, and `server.send_message`. -/
structure EmailEnv where
  readFile : String → Except String String
  login : String → String → Except String Unit
  sendMessage : EmailMessage → Except String Unit

/-- The body of the `try` block of `send_results_email` (lines 173-201):
read the file, build the message, log in and send it.  Any step may raise
(return `.error`). -/
def send_results_email_run (env : EmailEnv) (excel_filename : String) :
    Except String Bool := do
  let file_data ← env.readFile excel_filename
  let message : EmailMessage :=
    { subject := "Colonoscopy Depth Evaluation Results"
      sender := "your_sending_email@gmail.com"
      recipient := RESULTS_EMAIL
      content := "Here are the latest evaluation results in the attached Excel file."
      attachmentName := excel_filename
      attachmentData := file_data }
  let _ ← env.login "your_sending_email@gmail.com" "YOUR_APP_PASSWORD"
  let _ ← env.sendMessage message
  pure true

/-- Embedding of `send_results_email` (lines 166-204): the
`try`/`except Exception` wrapper that converts any raised exception into the
return value `False`. -/
def send_results_email (env : EmailEnv) (excel_filename : String) : Bool :=
  match send_results_email_run env excel_filename with
  | .ok b => b
  | .error _ => false

/-! ## Session state machine: `main` (lines 61-161) -/

/-- One row of `st.session_state.responses`:
`[rater_name, filename, category, chosen_model]` (line 159). -/
structure Judgment where
  rater_name : String
  filename : String
  category : String
  chosen_model : String
deriving DecidableEq, Repr

/-- The persistent `st.session_state` (lines 76-83). -/
structure SessionState where
  triplets_list : List Item
  current_idx : Nat
  responses : List Judgment
deriving DecidableEq, Repr

/-- Session initialization (lines 78-83): the pool is the shuffled triplet
list; cursor 0; empty response log. -/
def initSession (pool : List Item) : SessionState :=
  { triplets_list := pool, current_idx := 0, responses := [] }

/-- The two display slots of the radio control ("Option A" / "Option B"). -/
inductive Slot where
  | A
  | B
deriving DecidableEq, Repr

/-- The per-render slot assignment produced at lines 119-133.  `swap = false`
models `pos_order[0] == "A"` after `random.shuffle(pos_order)` (slot A shows
DepthPro); `swap = true` models the other outcome of the shuffle. -/
structure TrialPresentation where
  modelA_path : String
  modelB_path : String
  modelA_label : String
  modelB_label : String
deriving DecidableEq, Repr

def renderPresentation (it : Item) (swap : Bool) : TrialPresentation :=
  if swap then
    { modelA_path := it.ed_path, modelB_path := it.dp_path
      modelA_label := "EndoDac", modelB_label := "DepthPro" }
  else
    { modelA_path := it.dp_path, modelB_path := it.ed_path
      modelA_label := "DepthPro", modelB_label := "EndoDac" }

/-- The image file shown in a given display slot of a presentation. -/
def displayedPath (p : TrialPresentation) : Slot → String
  | .A => p.modelA_path
  | .B => p.modelB_path

/-- The response row appended at lines 153-159: the chosen slot is resolved
through the current presentation's labels. -/
def recordResponse (rater : String) (it : Item) (p : TrialPresentation)
    (chosen : Slot) : Judgment :=
  { rater_name := rater
    filename := it.filename
    category := it.cat
    chosen_model := match chosen with
      | .A => p.modelA_label
      | .B => p.modelB_label }

/-- Which button (if any) the user pressed before this run of the script.
`idle` = no button (initial render or a widget interaction that records
nothing); `nextImage` = the "Next Image" button with the current radio choice;
`finalize` = the "Finalize & Send Results via Email" button. -/
inductive Action where
  | idle
  | nextImage (chosen : Slot)
  | finalize
deriving DecidableEq, Repr

/-- The per-run inputs of one execution of the script body: the current value
of the rater-name text input (re-read every run at line 65), the randomness of
this render's slot shuffle, the pressed button, and the transport used if the
finalize button triggers an email. -/
structure RunInput where
  rater : String
  swap : Bool
  action : Action
  email : EmailEnv

/-- Python truthiness of a string: `not rater_name` at line 68 is true exactly
for the empty string. -/
def pyFalsy (s : String) : Bool := s == ""

/-- The columns of the exported DataFrame (line 92), in their literal order. -/
def RESULT_COLUMNS : List String :=
  ["rater_name", "filename", "category", "chosen_model"]

/-- The data rows of the export, one per response in log order (lines 91-94). -/
def exportRows (responses : List Judgment) : List (List String) :=
  responses.map fun j => [j.rater_name, j.filename, j.category, j.chosen_model]

/-- What one run of the script displayed or did. -/
inductive RunOutcome where
  | needName
  | completeScreen
  | finalized (header : List String) (rows : List (List String)) (emailOk : Bool)
  | trialShown (p : TrialPresentation)
  | advanced
deriving DecidableEq, Repr

/-- The part of the script body after the session state is resolved
(lines 86-161): completion screen with optional finalize when the cursor has
reached the pool length, otherwise render the trial at the cursor and handle a
"Next Image" click. -/
def runResolved (inp : RunInput) (st : SessionState) :
    RunOutcome × SessionState :=
  if h : st.triplets_list.length ≤ st.current_idx then
    match inp.action with
    | .finalize =>
        (.finalized RESULT_COLUMNS (exportRows st.responses)
          (send_results_email inp.email RESULTS_FILENAME), st)
    | _ => (.completeScreen, st)
  else
    let it := st.triplets_list.get ⟨st.current_idx, Nat.lt_of_not_le h⟩
    let p := renderPresentation it inp.swap
    match inp.action with
    | .nextImage chosen =>
        (.advanced,
          { triplets_list := st.triplets_list
            current_idx := st.current_idx + 1
            responses := st.responses ++ [recordResponse inp.rater it p chosen] })
    | _ => (.trialShown p, st)

/-- One full run of the script body `main` (lines 61-161): stop with a warning
if the rater name is falsy (empty), initialize the session state on first run,
then proceed as `runResolved`.  `pool` is the shuffled output of
`collect_image_triplets` used if this run initializes the session. -/
def runScript (inp : RunInput) (session : Option SessionState)
    (pool : List Item) : RunOutcome × Option SessionState :=
  if pyFalsy inp.rater then
    (.needName, session)
  else
    let st := match session with
      | none => initSession pool
      | some s => s
    let r := runResolved inp st
    (r.1, some r.2)

/-- A whole interactive session: fold the run function over a list of per-run
inputs, starting from an uninitialized session. -/
def runMany (pool : List Item) (inputs : List RunInput)
    (session : Option SessionState) : Option SessionState :=
  inputs.foldl (fun s i => (runScript i s pool).2) session

/-! ## Concrete fixtures used by witnesses and counterexamples -/

def itemA : Item := mkItem "high" "a.png"

def itemB : Item := mkItem "high" "b.png"

def demoPool : List Item := [itemA, itemB]

/-- A transport in which every step succeeds. -/
def envOk : EmailEnv :=
  { readFile := fun _ => .ok "bytes"
    login := fun _ _ => .ok ()
    sendMessage := fun _ => .ok () }

/-- A transport in which reading the spreadsheet file raises. -/
def envFail : EmailEnv :=
  { readFile := fun _ => .error "boom"
    login := fun _ _ => .ok ()
    sendMessage := fun _ => .ok () }

/-- A terminal session over the demo pool with both judgments recorded. -/
def demoCompleteState : SessionState :=
  { triplets_list := demoPool
    current_idx := 2
    responses :=
      [{ rater_name := "alice", filename := "a.png",
         category := "high", chosen_model := "DepthPro" },
       { rater_name := "alice", filename := "b.png",
         category := "high", chosen_model := "EndoDac" }] }

/-- A one-category, one-file directory layout: `a.png` present in all three
trees under category `high`, `b.png` present only under `images`. -/
def demoFS : FS :=
  { entries := fun cat => if cat = "high" then ["a.png", "b.png"] else []
    isFile := fun t cat f =>
      cat == "high" && (f == "a.png" || (t == Tree.images && f == "b.png")) }

/-! ## Helper lemmas -/

theorem mem_collect_iff (fs : FS) (it : Item) :
    it ∈ collect_image_triplets fs ↔
      ∃ cat f, cat ∈ DEPTH_CATEGORIES ∧ f ∈ fs.entries cat ∧
        fs.isFile .images cat f = true ∧ fs.isFile .depthpro cat f = true ∧
        fs.isFile .endodac cat f = true ∧ it = mkItem cat f := by
  simp only [collect_image_triplets, List.mem_flatMap, List.mem_filterMap,
    Option.ite_none_right_eq_some, Option.some.injEq, Bool.and_eq_true]
  constructor
  · rintro ⟨cat, hcat, f, hf, ⟨⟨h1, h2⟩, h3⟩, heq⟩
    exact ⟨cat, f, hcat, hf, h1, h2, h3, heq.symm⟩
  · rintro ⟨cat, f, hcat, hf, h1, h2, h3, heq⟩
    exact ⟨cat, hcat, f, hf, ⟨⟨h1, h2⟩, h3⟩, heq.symm⟩

theorem mkItem_inj {cat f cat' f' : String} (h : mkItem cat f = mkItem cat' f') :
    cat = cat' ∧ f = f' :=
  ⟨congrArg Item.cat h, congrArg Item.filename h⟩

/-- Characterization of one resolved run's state change: either the state is
unchanged, or the action was a "Next Image" click on an unfinished session and
exactly one response row was appended together with a cursor increment. -/
theorem runResolved_snd (inp : RunInput) (st : SessionState) :
    (runResolved inp st).2 = st ∨
    ∃ (chosen : Slot) (h : st.current_idx < st.triplets_list.length),
      inp.action = .nextImage chosen ∧
      (runResolved inp st).2 =
        { triplets_list := st.triplets_list
          current_idx := st.current_idx + 1
          responses := st.responses ++
            [recordResponse inp.rater (st.triplets_list.get ⟨st.current_idx, h⟩)
              (renderPresentation (st.triplets_list.get ⟨st.current_idx, h⟩)
                inp.swap) chosen] } := by
  unfold runResolved
  split
  · cases inp.action <;> simp
  · rename_i h
    cases hact : inp.action with
    | nextImage chosen =>
        exact Or.inr ⟨chosen, Nat.lt_of_not_le h, rfl, rfl⟩
    | idle => simp
    | finalize => simp

/-- A "Next Image" click on an unfinished resolved state advances the cursor
and appends the resolved response. -/
theorem runResolved_next (rater : String) (swap : Bool) (env : EmailEnv)
    (chosen : Slot) (st : SessionState)
    (hidx : st.current_idx < st.triplets_list.length) :
    runResolved ⟨rater, swap, .nextImage chosen, env⟩ st =
      (.advanced,
        { triplets_list := st.triplets_list
          current_idx := st.current_idx + 1
          responses := st.responses ++
            [recordResponse rater (st.triplets_list.get ⟨st.current_idx, hidx⟩)
              (renderPresentation (st.triplets_list.get ⟨st.current_idx, hidx⟩)
                swap) chosen] }) := by
  unfold runResolved
  rw [dif_neg (Nat.not_le.mpr hidx)]

/-- A "Next Image" click on an active session with a non-empty rater name
advances the cursor and appends the resolved response. -/
theorem runScript_next (rater : String) (swap : Bool) (env : EmailEnv)
    (chosen : Slot) (st : SessionState) (pool : List Item)
    (hr : rater ≠ "") (hidx : st.current_idx < st.triplets_list.length) :
    runScript ⟨rater, swap, .nextImage chosen, env⟩ (some st) pool =
      (.advanced, some
        { triplets_list := st.triplets_list
          current_idx := st.current_idx + 1
          responses := st.responses ++
            [recordResponse rater (st.triplets_list.get ⟨st.current_idx, hidx⟩)
              (renderPresentation (st.triplets_list.get ⟨st.current_idx, hidx⟩)
                swap) chosen] }) := by
  unfold runScript
  rw [if_neg (by simp [pyFalsy, hr])]
  show ((runResolved ⟨rater, swap, .nextImage chosen, env⟩ st).1,
      some (runResolved ⟨rater, swap, .nextImage chosen, env⟩ st).2) = _
  rw [runResolved_next rater swap env chosen st hidx]

theorem runMany_induction (P : Option SessionState → Prop) (pool : List Item) :
    ∀ (inputs : List RunInput) (s : Option SessionState), P s →
      (∀ inp ∈ inputs, ∀ s, P s → P (runScript inp s pool).2) →
      P (runMany pool inputs s) := by
  intro inputs
  induction inputs with
  | nil => intro s h _; exact h
  | cons i rest ih =>
      intro s h hstep
      exact ih _ (hstep i (by simp) s h)
        (fun inp hmem s hs => hstep inp (by simp [hmem]) s hs)

/-- Invariant of a resolved session state: response-log length equals the
cursor and the cursor is at most the pool length. -/
def stateInv (st : SessionState) : Prop :=
  st.responses.length = st.current_idx ∧
  st.current_idx ≤ st.triplets_list.length

/-- Invariant of the optional session state: trivial before initialization. -/
def sessionInv : Option SessionState → Prop
  | none => True
  | some st => stateInv st

theorem stateInv_initSession (pool : List Item) : stateInv (initSession pool) :=
  ⟨rfl, Nat.zero_le _⟩

theorem stateInv_runResolved (inp : RunInput) (st : SessionState)
    (h : stateInv st) : stateInv (runResolved inp st).2 := by
  rcases runResolved_snd inp st with heq | ⟨c, hidx, _, heq⟩
  · rw [heq]; exact h
  · rw [heq]
    exact ⟨by simp [h.1], hidx⟩

theorem sessionInv_runScript (inp : RunInput) (s : Option SessionState)
    (pool : List Item) (h : sessionInv s) :
    sessionInv (runScript inp s pool).2 := by
  unfold runScript
  by_cases hf : pyFalsy inp.rater = true
  · rw [if_pos hf]; exact h
  · rw [if_neg hf]
    cases s with
    | none =>
        show stateInv (runResolved inp (initSession pool)).2
        exact stateInv_runResolved inp _ (stateInv_initSession pool)
    | some st =>
        show stateInv (runResolved inp st).2
        exact stateInv_runResolved inp st h

/-- Characterization of how one resolved run can change the response log:
unchanged, or extended by exactly one judgment whose rater name is the
current text-input value and whose chosen model is one of the two labels. -/
theorem runResolved_responses (inp : RunInput) (st : SessionState) :
    (runResolved inp st).2.responses = st.responses ∨
    ∃ j, (runResolved inp st).2.responses = st.responses ++ [j] ∧
      j.rater_name = inp.rater ∧
      (j.chosen_model = "DepthPro" ∨ j.chosen_model = "EndoDac") := by
  rcases runResolved_snd inp st with heq | ⟨c, hidx, _, heq⟩
  · rw [heq]; exact Or.inl rfl
  · rw [heq]
    refine Or.inr ⟨_, rfl, rfl, ?_⟩
    cases c <;> rcases hsw : inp.swap <;>
      simp [recordResponse, renderPresentation, hsw]

/-- Lift of `runResolved_responses` through `runScript`. -/
theorem runScript_responses (inp : RunInput) (s : Option SessionState)
    (pool : List Item) (st' : SessionState)
    (heq : (runScript inp s pool).2 = some st') :
    ∃ st0 : SessionState,
      (s = some st0 ∨ st0 = initSession pool) ∧
      (st'.responses = st0.responses ∨
        ∃ j, st'.responses = st0.responses ++ [j] ∧
          j.rater_name = inp.rater ∧
          (j.chosen_model = "DepthPro" ∨ j.chosen_model = "EndoDac")) := by
  unfold runScript at heq
  by_cases hf : pyFalsy inp.rater = true
  · rw [if_pos hf] at heq
    cases s with
    | none => cases heq
    | some st0 =>
        exact ⟨st0, Or.inl rfl, Or.inl (by cases heq; rfl)⟩
  · rw [if_neg hf] at heq
    cases s with
    | none =>
        have heq' : (runResolved inp (initSession pool)).2 = st' :=
          Option.some.inj heq
        exact ⟨initSession pool, Or.inr rfl,
          heq' ▸ runResolved_responses inp (initSession pool)⟩
    | some st0 =>
        have heq' : (runResolved inp st0).2 = st' := Option.some.inj heq
        exact ⟨st0, Or.inl rfl, heq' ▸ runResolved_responses inp st0⟩

/-- A run whose resolved result is the finalize screen's export: it can only
come from a terminal state, exports the literal column list and the responses
in log order, and leaves the state unchanged. -/
theorem runResolved_finalized (inp : RunInput) (st : SessionState)
    (hdr : List String) (rows : List (List String)) (ok : Bool)
    (st' : SessionState)
    (h : runResolved inp st = (.finalized hdr rows ok, st')) :
    st.triplets_list.length ≤ st.current_idx ∧
    hdr = RESULT_COLUMNS ∧ rows = exportRows st.responses ∧ st' = st := by
  unfold runResolved at h
  by_cases hc : st.triplets_list.length ≤ st.current_idx
  · rw [dif_pos hc] at h
    cases hact : inp.action with
    | finalize =>
        rw [hact] at h
        injection h with hout hst
        injection hout with h1 h2 h3
        exact ⟨hc, h1.symm, h2.symm, hst.symm⟩
    | idle => rw [hact] at h; simp at h
    | nextImage c => rw [hact] at h; simp at h
  · rw [dif_neg hc] at h
    cases hact : inp.action <;> rw [hact] at h <;> simp at h

/-- Idle runs leave the resolved state untouched. -/
theorem runResolved_idle_snd (rater : String) (swap : Bool) (env : EmailEnv)
    (st : SessionState) :
    (runResolved ⟨rater, swap, .idle, env⟩ st).2 = st := by
  unfold runResolved
  split <;> rfl

/-! ## Claim theorems -/

/-- C1: for every trial, both random slot assignments and both possible
choices, the judgment appended by a "Next Image" click records as
`chosen_model` the original identity (DepthPro or EndoDac) of the image
actually displayed in the chosen slot of the current render's presentation:
the label is "DepthPro" exactly when the chosen slot shows the DepthPro file
of the item at the cursor, and "EndoDac" when it shows the EndoDac file. -/
theorem chosen_model_matches_displayed_provenance
    (rater : String) (swap : Bool) (env : EmailEnv) (chosen : Slot)
    (st : SessionState) (pool : List Item)
    (hr : rater ≠ "") (hidx : st.current_idx < st.triplets_list.length) :
    ∃ j, runScript ⟨rater, swap, .nextImage chosen, env⟩ (some st) pool =
        (.advanced, some
          { triplets_list := st.triplets_list
            current_idx := st.current_idx + 1
            responses := st.responses ++ [j] }) ∧
      ((j.chosen_model = "DepthPro" ∧
          displayedPath (renderPresentation
            (st.triplets_list.get ⟨st.current_idx, hidx⟩) swap) chosen =
            (st.triplets_list.get ⟨st.current_idx, hidx⟩).dp_path) ∨
       (j.chosen_model = "EndoDac" ∧
          displayedPath (renderPresentation
            (st.triplets_list.get ⟨st.current_idx, hidx⟩) swap) chosen =
            (st.triplets_list.get ⟨st.current_idx, hidx⟩).ed_path)) := by
  refine ⟨_, runScript_next rater swap env chosen st pool hr hidx, ?_⟩
  cases swap <;> cases chosen <;>
    simp [recordResponse, renderPresentation, displayedPath]

theorem chosen_model_matches_displayed_provenance_witness :
    ∃ j, runScript ⟨"alice", false, .nextImage .A, envOk⟩
        (some (initSession demoPool)) demoPool =
        (.advanced, some
          { triplets_list := demoPool
            current_idx := 1
            responses := [j] }) ∧
      ((j.chosen_model = "DepthPro" ∧
          displayedPath (renderPresentation itemA false) .A = itemA.dp_path) ∨
       (j.chosen_model = "EndoDac" ∧
          displayedPath (renderPresentation itemA false) .A = itemA.ed_path)) :=
  chosen_model_matches_displayed_provenance "alice" false envOk .A
    (initSession demoPool) demoPool (by decide) (by decide)

/-- C2: an item is returned by `collect_image_triplets` exactly when its
category is one of the scanned categories and its filename is a regular file
in all three trees under that category; and every returned item is the
canonical triplet of its category and filename, so it references three
existing files.  The hypothesis states the file-system fact that a regular
file inside `images/<cat>` appears in the listing of that directory. -/
theorem collect_image_triplets_exact (fs : FS)
    (hfs : ∀ cat f, fs.isFile .images cat f = true → f ∈ fs.entries cat) :
    (∀ cat f, mkItem cat f ∈ collect_image_triplets fs ↔
        cat ∈ DEPTH_CATEGORIES ∧ fs.isFile .images cat f = true ∧
        fs.isFile .depthpro cat f = true ∧ fs.isFile .endodac cat f = true)
    ∧ (∀ it ∈ collect_image_triplets fs,
        it = mkItem it.cat it.filename ∧
        fs.isFile .images it.cat it.filename = true ∧
        fs.isFile .depthpro it.cat it.filename = true ∧
        fs.isFile .endodac it.cat it.filename = true) := by
  constructor
  · intro cat f
    rw [mem_collect_iff]
    constructor
    · rintro ⟨cat', f', hcat, _, h1, h2, h3, heq⟩
      obtain ⟨h4, h5⟩ := mkItem_inj heq
      subst h4; subst h5
      exact ⟨hcat, h1, h2, h3⟩
    · rintro ⟨hcat, h1, h2, h3⟩
      exact ⟨cat, f, hcat, hfs cat f h1, h1, h2, h3, rfl⟩
  · intro it hit
    rw [mem_collect_iff] at hit
    obtain ⟨cat, f, hcat, _, h1, h2, h3, rfl⟩ := hit
    exact ⟨rfl, h1, h2, h3⟩

theorem demoFS_listdir_complete :
    ∀ cat f, demoFS.isFile .images cat f = true → f ∈ demoFS.entries cat := by
  intro cat f h
  simp only [demoFS, Bool.and_eq_true, Bool.or_eq_true, beq_iff_eq] at h
  obtain ⟨rfl, h⟩ := h
  rcases h with rfl | ⟨-, rfl⟩ <;> simp [demoFS]

theorem collect_image_triplets_exact_witness :
    mkItem "high" "a.png" ∈ collect_image_triplets demoFS :=
  ((collect_image_triplets_exact demoFS demoFS_listdir_complete).1
    "high" "a.png").mpr (by decide)

/-- C3: starting from an uninitialized session, every reachable session state
has response-log length equal to the cursor and cursor at most the pool
length; and every "Next Image" click on an active session appends exactly one
judgment and increments the cursor by exactly one. -/
theorem session_invariants :
    (∀ (pool : List Item) (inputs : List RunInput),
        sessionInv (runMany pool inputs none))
    ∧ (∀ (rater : String) (swap : Bool) (env : EmailEnv) (chosen : Slot)
        (st : SessionState) (pool : List Item),
        rater ≠ "" → st.current_idx < st.triplets_list.length →
        ∃ j, runScript ⟨rater, swap, .nextImage chosen, env⟩ (some st) pool =
          (.advanced, some
            { triplets_list := st.triplets_list
              current_idx := st.current_idx + 1
              responses := st.responses ++ [j] })) := by
  constructor
  · intro pool inputs
    exact runMany_induction sessionInv pool inputs none trivial
      (fun inp _ s hs => sessionInv_runScript inp s pool hs)
  · intro rater swap env chosen st pool hr hidx
    exact ⟨_, runScript_next rater swap env chosen st pool hr hidx⟩

theorem session_invariants_witness :
    sessionInv (runMany demoPool [] none) ∧
    ∃ j, runScript ⟨"alice", true, .nextImage .B, envOk⟩
        (some (initSession demoPool)) demoPool =
      (.advanced, some
        { triplets_list := demoPool
          current_idx := 1
          responses := [j] }) :=
  ⟨session_invariants.1 demoPool [],
   session_invariants.2 "alice" true envOk .B (initSession demoPool) demoPool
     (by decide) (by decide)⟩

/-- C4: a "Next Image" record attempt on a terminal session (cursor equal to
the pool length) is rejected: the script shows the completion screen again,
the session state is returned unchanged, and no judgment is appended.  This
is the code's realization of the spec's `InvalidState` failure: when the
session is complete the record control is unreachable and any record attempt
leaves the judgment log and cursor untouched. -/
theorem record_after_complete_rejected (rater : String) (swap : Bool)
    (env : EmailEnv) (chosen : Slot) (st : SessionState) (pool : List Item)
    (hr : rater ≠ "") (hc : st.triplets_list.length ≤ st.current_idx) :
    runScript ⟨rater, swap, .nextImage chosen, env⟩ (some st) pool =
      (.completeScreen, some st) := by
  unfold runScript
  rw [if_neg (by simp [pyFalsy, hr])]
  show ((runResolved ⟨rater, swap, .nextImage chosen, env⟩ st).1,
      some (runResolved ⟨rater, swap, .nextImage chosen, env⟩ st).2) = _
  unfold runResolved
  rw [dif_pos hc]

theorem record_after_complete_rejected_witness :
    runScript ⟨"alice", false, .nextImage .A, envOk⟩
        (some (initSession [])) [] =
      (.completeScreen, some (initSession [])) :=
  record_after_complete_rejected "alice" false envOk .A (initSession []) []
    (by decide) (by decide)

/-- C5 (as written, refuted): the claim says a whitespace-only rater
identifier is rejected with no session created; but `if not rater_name` in
Python is false for the truthy string `" "`, so a run with the whitespace-only
name `" "` initializes a session. -/
theorem start_whitespace_name_accepted :
    (runScript ⟨" ", false, .idle, envOk⟩ none []).2 = some (initSession []) := by
  decide

/-- C5 (amended): a run rejects the rater name and creates no session exactly
when the name is the empty string (Python falsiness); the script stops with a
warning and leaves the session storage untouched.  A whitespace-only name is
truthy and is accepted. -/
theorem start_empty_name_rejected (swap : Bool) (env : EmailEnv) (a : Action)
    (session : Option SessionState) (pool : List Item) :
    runScript ⟨"", swap, a, env⟩ session pool = (.needName, session) := rfl

/-- C6 (as written, refuted): the rater name is re-read from the text input on
every rerun of the script (line 65) and each recorded judgment uses the value
current at that run, so editing the name between trials yields judgments with
different rater identifiers inside one session. -/
theorem rater_can_change_between_judgments :
    runMany demoPool
      [⟨"alice", false, .idle, envOk⟩,
       ⟨"alice", false, .nextImage .A, envOk⟩,
       ⟨"bob", false, .nextImage .A, envOk⟩] none =
      some
        { triplets_list := demoPool
          current_idx := 2
          responses :=
            [{ rater_name := "alice", filename := "a.png",
               category := "high", chosen_model := "DepthPro" },
             { rater_name := "bob", filename := "b.png",
               category := "high", chosen_model := "DepthPro" }] } ∧
    ("alice" : String) ≠ "bob" := by
  exact ⟨by decide, by decide⟩

/-- C6 (amended): each judgment records the text-input value current at the
run that recorded it; in particular, if the rater name is the same at every
run of the session, then all judgments in the log carry that one name. -/
theorem rater_constant_if_input_constant (pool : List Item)
    (inputs : List RunInput) (r : String)
    (hr : ∀ inp ∈ inputs, inp.rater = r) (st : SessionState)
    (hrun : runMany pool inputs none = some st) :
    ∀ j ∈ st.responses, j.rater_name = r := by
  refine runMany_induction
    (fun s => ∀ st', s = some st' → ∀ j ∈ st'.responses, j.rater_name = r)
    pool inputs none (fun st' h => by cases h) ?_ st hrun
  intro inp hmem s hs st' heq j hj
  obtain ⟨st0, hst0, hresp⟩ := runScript_responses inp s pool st' heq
  have hprev : ∀ j ∈ st0.responses, j.rater_name = r := by
    rcases hst0 with h | h
    · exact hs st0 h
    · rw [h]
      intro j hj
      simp [initSession] at hj
  rcases hresp with h | ⟨j0, h, hj0, -⟩
  · exact hprev j (h ▸ hj)
  · rw [h] at hj
    rcases List.mem_append.mp hj with hj | hj
    · exact hprev j hj
    · rw [List.mem_singleton.mp hj, hj0]
      exact hr inp hmem

theorem rater_constant_if_input_constant_witness :
    ({ rater_name := "alice", filename := "b.png",
       category := "high", chosen_model := "DepthPro" } : Judgment).rater_name
      = "alice" :=
  rater_constant_if_input_constant demoPool
    [⟨"alice", false, .idle, envOk⟩,
     ⟨"alice", false, .nextImage .A, envOk⟩,
     ⟨"alice", true, .nextImage .B, envOk⟩] "alice"
    (by
      intro inp hmem
      rcases List.mem_cons.mp hmem with rfl | hmem
      · rfl
      rcases List.mem_cons.mp hmem with rfl | hmem
      · rfl
      rcases List.mem_cons.mp hmem with rfl | hmem
      · rfl
      simp at hmem)
    { triplets_list := demoPool
      current_idx := 2
      responses :=
        [{ rater_name := "alice", filename := "a.png",
           category := "high", chosen_model := "DepthPro" },
         { rater_name := "alice", filename := "b.png",
           category := "high", chosen_model := "DepthPro" }] }
    (by decide)
    { rater_name := "alice", filename := "b.png",
      category := "high", chosen_model := "DepthPro" }
    (by decide)

/-- C7: a run can produce the export outcome only from a terminal session
(cursor at the pool length); the export consists of the literal column list
`rater_name, filename, category, chosen_model` and one row per judgment in
log order, and the session state is unchanged by it.  In particular a
non-terminal (partial) judgment log is never exported. -/
theorem export_only_when_complete (inp : RunInput)
    (session : Option SessionState) (pool : List Item)
    (hdr : List String) (rows : List (List String)) (ok : Bool)
    (s' : Option SessionState)
    (h : runScript inp session pool = (.finalized hdr rows ok, s')) :
    ∃ st : SessionState,
      (session = some st ∨ (session = none ∧ st = initSession pool)) ∧
      st.triplets_list.length ≤ st.current_idx ∧
      hdr = ["rater_name", "filename", "category", "chosen_model"] ∧
      rows = st.responses.map
        (fun j => [j.rater_name, j.filename, j.category, j.chosen_model]) ∧
      s' = some st := by
  unfold runScript at h
  by_cases hf : pyFalsy inp.rater = true
  · rw [if_pos hf] at h
    simp at h
  · rw [if_neg hf] at h
    cases session with
    | none =>
        have hfst : (runResolved inp (initSession pool)).1 =
            RunOutcome.finalized hdr rows ok := congrArg Prod.fst h
        have hsnd : some (runResolved inp (initSession pool)).2 = s' :=
          congrArg Prod.snd h
        obtain ⟨hc, h1, h2, h3⟩ :=
          runResolved_finalized inp (initSession pool) hdr rows ok
            (runResolved inp (initSession pool)).2 (by rw [← hfst])
        refine ⟨initSession pool, Or.inr ⟨rfl, rfl⟩, hc, h1, h2, ?_⟩
        rw [← hsnd, h3]
    | some st0 =>
        have hfst : (runResolved inp st0).1 =
            RunOutcome.finalized hdr rows ok := congrArg Prod.fst h
        have hsnd : some (runResolved inp st0).2 = s' := congrArg Prod.snd h
        obtain ⟨hc, h1, h2, h3⟩ :=
          runResolved_finalized inp st0 hdr rows ok
            (runResolved inp st0).2 (by rw [← hfst])
        refine ⟨st0, Or.inl rfl, hc, h1, h2, ?_⟩
        rw [← hsnd, h3]

theorem export_only_when_complete_witness :
    ∃ st : SessionState,
      ((some (demoCompleteState) : Option SessionState) = some st ∨
        ((some (demoCompleteState) : Option SessionState) = none ∧
          st = initSession demoPool)) ∧
      st.triplets_list.length ≤ st.current_idx ∧
      (RESULT_COLUMNS = ["rater_name", "filename", "category", "chosen_model"]) ∧
      (exportRows demoCompleteState.responses = st.responses.map
        (fun j => [j.rater_name, j.filename, j.category, j.chosen_model])) ∧
      (some demoCompleteState : Option SessionState) = some st :=
  export_only_when_complete ⟨"alice", false, .finalize, envOk⟩
    (some demoCompleteState) demoPool RESULT_COLUMNS
    (exportRows demoCompleteState.responses)
    (send_results_email envOk RESULTS_FILENAME) (some demoCompleteState) rfl

/-- C8: the delivery wrapper is a total boolean function: when the body runs
to completion it returns `true`, and every raised transport exception (an
`.error` outcome of the body) is converted into the returned value `false` —
no exception propagates out of `send_results_email`. -/
theorem send_results_email_total (env : EmailEnv) (fn : String) :
    (send_results_email env fn = true ↔
      send_results_email_run env fn = .ok true) ∧
    (∀ e, send_results_email_run env fn = .error e →
      send_results_email env fn = false) := by
  unfold send_results_email
  cases hrun : send_results_email_run env fn <;> simp [hrun]

theorem send_results_email_total_witness :
    send_results_email envFail RESULTS_FILENAME = false ∧
    send_results_email envOk RESULTS_FILENAME = true :=
  ⟨(send_results_email_total envFail RESULTS_FILENAME).2 "boom" rfl,
   (send_results_email_total envOk RESULTS_FILENAME).1.mpr rfl⟩

/-- C9: a run that presents the current trial without a button press (a pure
re-render) leaves the session state — pool, cursor and judgment log —
unchanged, even though the two possible values of the per-render randomness
produce different slot presentations for the same item. -/
theorem current_trial_pure_read (rater : String) (swap : Bool)
    (env : EmailEnv) (st : SessionState) (pool : List Item) :
    (runScript ⟨rater, swap, .idle, env⟩ (some st) pool).2 = some st ∧
    ∀ it : Item, renderPresentation it true ≠ renderPresentation it false := by
  constructor
  · unfold runScript
    by_cases hf : pyFalsy rater = true
    · rw [if_pos hf]
    · rw [if_neg hf]
      exact congrArg some (runResolved_idle_snd rater swap env st)
  · intro it h
    have hlab := congrArg TrialPresentation.modelA_label h
    simp [renderPresentation] at hlab

theorem current_trial_pure_read_witness :
    (runScript ⟨"alice", false, .idle, envOk⟩
      (some (initSession demoPool)) demoPool).2 = some (initSession demoPool) :=
  (current_trial_pure_read "alice" false envOk (initSession demoPool)
    demoPool).1

/-- C10: in every session state reachable from an uninitialized session, every
judgment in the log has a `chosen_model` that is one of the two literal
strings "DepthPro" and "EndoDac". -/
theorem chosen_model_in_known_labels (pool : List Item)
    (inputs : List RunInput) (st : SessionState)
    (hrun : runMany pool inputs none = some st) :
    ∀ j ∈ st.responses,
      j.chosen_model = "DepthPro" ∨ j.chosen_model = "EndoDac" := by
  refine runMany_induction
    (fun s => ∀ st', s = some st' → ∀ j ∈ st'.responses,
      j.chosen_model = "DepthPro" ∨ j.chosen_model = "EndoDac")
    pool inputs none (fun st' h => by cases h) ?_ st hrun
  intro inp hmem s hs st' heq j hj
  obtain ⟨st0, hst0, hresp⟩ := runScript_responses inp s pool st' heq
  have hprev : ∀ j ∈ st0.responses,
      j.chosen_model = "DepthPro" ∨ j.chosen_model = "EndoDac" := by
    rcases hst0 with h | h
    · exact hs st0 h
    · rw [h]
      intro j hj
      simp [initSession] at hj
  rcases hresp with h | ⟨j0, h, -, hval⟩
  · exact hprev j (h ▸ hj)
  · rw [h] at hj
    rcases List.mem_append.mp hj with hj | hj
    · exact hprev j hj
    · rw [List.mem_singleton.mp hj]
      exact hval

theorem chosen_model_in_known_labels_witness :
    ({ rater_name := "alice", filename := "a.png",
       category := "high", chosen_model := "DepthPro" } : Judgment).chosen_model
        = "DepthPro" ∨
    ({ rater_name := "alice", filename := "a.png",
       category := "high", chosen_model := "DepthPro" } : Judgment).chosen_model
        = "EndoDac" :=
  chosen_model_in_known_labels demoPool
    [⟨"alice", false, .nextImage .A, envOk⟩]
    { triplets_list := demoPool
      current_idx := 1
      responses :=
        [{ rater_name := "alice", filename := "a.png",
           category := "high", chosen_model := "DepthPro" }] }
    (by decide)
    { rater_name := "alice", filename := "a.png",
      category := "high", chosen_model := "DepthPro" }
    (by decide)

end QT
